import Mathlib

/-!
Verification development for the sensor_hu_standalone firmware calculation
engine.  The C++ sources are shallowly embedded here:

* IEEE-754 `float` values are modelled by `FP`, rational numbers extended
  with `nan` and the two infinities; finite arithmetic is exact (no
  rounding), which is faithful for every concrete computation proved below
  (all of them stay well inside the exactly representable range).
* `double` values inside the expression evaluator are modelled by `ℚ`
  directly; again every claim proved below only exercises arithmetic whose
  `double` execution is exact.
* C strings are modelled by `List Char` cursors; fallible routines return
  `Except String` carrying the source's error message.
-/

namespace SensorHu

/-! ### Kernel-computable rational arithmetic

Batteries marks `Rat.add`, `Rat.sub`, `Rat.mul` and `Rat.inv`
`@[irreducible]`, so terms built from the standard operations do not reduce
under `decide`.  The embedding therefore computes with the following
clones, each proved equal to the standard operation. -/

/-- Reducible clone of `Rat.add`. -/
def qadd (a b : ℚ) : ℚ := mkRat (a.num * b.den + b.num * a.den) (a.den * b.den)


/-- Reducible clone of `Rat.sub`. -/
def qsub (a b : ℚ) : ℚ := mkRat (a.num * b.den - b.num * a.den) (a.den * b.den)


/-- Reducible clone of `Rat.mul`. -/
def qmul (a b : ℚ) : ℚ := mkRat (a.num * b.num) (a.den * b.den)


/-- Reducible clone of division on `ℚ`. -/
def qdiv (a b : ℚ) : ℚ := Rat.divInt (a.num * b.den) (a.den * b.num)


/-- Reducible absolute value on `ℚ`. -/
def qabs (q : ℚ) : ℚ := if q < 0 then -q else q


/-- Extended rational model of an IEEE-754 `float`: a finite value, NaN, or
a signed infinity.  Finite arithmetic is exact. -/
inductive FP where
  | fin (q : ℚ)
  | nan
  | pinf
  | ninf
deriving DecidableEq, Repr

/-- IEEE addition on the float model. -/
def FP.add : FP → FP → FP
  | .nan, _ => .nan
  | _, .nan => .nan
  | .pinf, .ninf => .nan
  | .ninf, .pinf => .nan
  | .pinf, _ => .pinf
  | _, .pinf => .pinf
  | .ninf, _ => .ninf
  | _, .ninf => .ninf
  | .fin a, .fin b => .fin (qadd a b)

/-- IEEE subtraction on the float model. -/
def FP.sub : FP → FP → FP
  | .nan, _ => .nan
  | _, .nan => .nan
  | .pinf, .pinf => .nan
  | .ninf, .ninf => .nan
  | .pinf, _ => .pinf
  | .ninf, _ => .ninf
  | _, .pinf => .ninf
  | _, .ninf => .pinf
  | .fin a, .fin b => .fin (qsub a b)

/-- IEEE multiplication on the float model. -/
def FP.mul : FP → FP → FP
  | .nan, _ => .nan
  | _, .nan => .nan
  | .fin a, .fin b => .fin (qmul a b)
  | .pinf, .pinf => .pinf
  | .pinf, .ninf => .ninf
  | .ninf, .pinf => .ninf
  | .ninf, .ninf => .pinf
  | .pinf, .fin b => if b = 0 then .nan else if 0 < b then .pinf else .ninf
  | .fin a, .pinf => if a = 0 then .nan else if 0 < a then .pinf else .ninf
  | .ninf, .fin b => if b = 0 then .nan else if 0 < b then .ninf else .pinf
  | .fin a, .ninf => if a = 0 then .nan else if 0 < a then .ninf else .pinf

/-- IEEE division on the float model (the sign of a zero divisor is not
tracked; no computation below divides by a negative zero). -/
def FP.div : FP → FP → FP
  | .nan, _ => .nan
  | _, .nan => .nan
  | .fin a, .fin b =>
      if b = 0 then (if a = 0 then .nan else if 0 < a then .pinf else .ninf)
      else .fin (qdiv a b)
  | .pinf, .pinf => .nan
  | .pinf, .ninf => .nan
  | .ninf, .pinf => .nan
  | .ninf, .ninf => .nan
  | .pinf, .fin b => if 0 ≤ b then .pinf else .ninf
  | .ninf, .fin b => if 0 ≤ b then .ninf else .pinf
  | .fin _, .pinf => .fin 0
  | .fin _, .ninf => .fin 0

/-- IEEE comparison `x <= y` on the float model: any comparison involving
NaN is false. -/
def FP.fle : FP → FP → Bool
  | .nan, _ => false
  | _, .nan => false
  | .ninf, _ => true
  | _, .ninf => false
  | _, .pinf => true
  | .pinf, _ => false
  | .fin a, .fin b => decide (a ≤ b)

/-- Per-register smoothing state (`KalmanState` in kalman_filter.h),
polymorphic in the numeric carrier: the filter itself runs on `FP`, the
calculation cycle only reads `estimate`/`initialized` and is embedded
over `ℚ`. -/
structure KalmanState (α : Type) where
  estimate : α
  errorCov : α
  initialized : Bool
deriving DecidableEq, Repr

instance : Inhabited (KalmanState ℚ) := ⟨⟨0, 1, false⟩⟩

/-- `KALMAN_Q_DEFAULT` from kalman_filter.cpp. -/
def KALMAN_Q_DEFAULT : FP := .fin (mkRat 1 100)

/-- `KALMAN_R_DEFAULT` from kalman_filter.cpp. -/
def KALMAN_R_DEFAULT : FP := .fin (mkRat 1 10)

/-- `kalmanInit` from kalman_filter.cpp (the null-pointer guard has no
counterpart: states are values here). -/
def kalmanInit (initialValue : FP) : KalmanState FP :=
  { estimate := initialValue, errorCov := .fin 1, initialized := true }

/-- `kalmanFilter` from kalman_filter.cpp, returning the updated state and
the returned value.  Note the validation is the C comparison `Q <= 0.0f`,
which is false for NaN and positive infinity. -/
def kalmanFilter (state : KalmanState FP) (measurement Q R : FP) :
    KalmanState FP × FP :=
  let Q := if Q.fle (.fin 0) then KALMAN_Q_DEFAULT else Q
  let R := if R.fle (.fin 0) then KALMAN_R_DEFAULT else R
  if !state.initialized then
    (kalmanInit measurement, measurement)
  else
    let predErrorCov := state.errorCov.add Q
    let kalmanGain := predErrorCov.div (predErrorCov.add R)
    let estimate := state.estimate.add (kalmanGain.mul (measurement.sub state.estimate))
    let errorCov := ((FP.fin 1).sub kalmanGain).mul predErrorCov
    ({ estimate := estimate, errorCov := errorCov, initialized := state.initialized },
     estimate)

/-- `kalmanReset` from kalman_filter.cpp. -/
def kalmanReset : KalmanState FP :=
  { estimate := .fin 0, errorCov := .fin 1, initialized := false }

/-! ### Expression evaluator (expression_parser.cpp)

The C code scans a `const char*` cursor; here every routine consumes a
`List Char` and returns the unconsumed remainder.  Failure carries the
source's error message. -/

/-- Space-or-tab test used by `skipSpaces` in expression_parser.cpp. -/
def isSpaceTab (c : Char) : Bool := c = ' ' || c = '\t'

/-- `skipSpaces` from expression_parser.cpp. -/
def skipSpaces : List Char → List Char
  | [] => []
  | c :: rest => if isSpaceTab c then skipSpaces rest else c :: rest

/-- Longest prefix of decimal digits together with the remainder. -/
def takeDigits : List Char → List Char × List Char
  | [] => ([], [])
  | c :: rest =>
    if c.isDigit then
      let p := takeDigits rest
      (c :: p.1, p.2)
    else ([], c :: rest)

/-- Numeric value of a digit string. -/
def digitsVal (ds : List Char) : Nat :=
  ds.foldl (fun a c => a * 10 + (c.toNat - 48)) 0

/-- Kernel-computable power on `ℚ` (Mathlib's `Monoid.npow` does not
reduce under `decide`). -/
def qpowNat (b : ℚ) (n : Nat) : ℚ :=
  match n with
  | 0 => 1
  | m+1 => qmul b (qpowNat b m)
termination_by structural n


/-- Model of C `strtod` on decimal literals:
`[sign] digits [. digits] [(e|E) [sign] digits]`, returning `none` when no
conversion is performed (hexadecimal, infinity and nan spellings are not
modelled; no script in any claim uses them).  The exponent letter is not
consumed when no digits follow it, as in `strtod`. -/
def strtodParse (s : List Char) : Option (ℚ × List Char) :=
  let signSplit : Bool × List Char :=
    match s with
    | '-' :: r => (true, r)
    | '+' :: r => (false, r)
    | _ => (false, s)
  let neg := signSplit.1
  let p1 := takeDigits signSplit.2
  let ip := p1.1
  let p2 : List Char × List Char :=
    match p1.2 with
    | '.' :: r => takeDigits r
    | _ => ([], p1.2)
  let fp := p2.1
  if ip = [] ∧ fp = [] then none
  else
    let mant : ℚ := qadd (digitsVal ip : ℚ) (qdiv (digitsVal fp : ℚ) (qpowNat 10 fp.length))
    let expPart : ℚ × List Char :=
      match p2.2 with
      | 'e' :: r =>
        let es : Bool × List Char :=
          match r with
          | '-' :: r2 => (true, r2)
          | '+' :: r2 => (false, r2)
          | _ => (false, r)
        let ed := takeDigits es.2
        if ed.1 = [] then (1, p2.2)
        else (if es.1 then qdiv 1 (qpowNat 10 (digitsVal ed.1)) else qpowNat 10 (digitsVal ed.1), ed.2)
      | 'E' :: r =>
        let es : Bool × List Char :=
          match r with
          | '-' :: r2 => (true, r2)
          | '+' :: r2 => (false, r2)
          | _ => (false, r)
        let ed := takeDigits es.2
        if ed.1 = [] then (1, p2.2)
        else (if es.1 then qdiv 1 (qpowNat 10 (digitsVal ed.1)) else qpowNat 10 (digitsVal ed.1), ed.2)
      | _ => (1, p2.2)
    let v := qmul mant expPart.1
    some (if neg then -v else v, expPart.2)

/-- `parseNumber` from expression_parser.cpp: skip spaces, reject end of
input, then `strtod`. -/
def parseNumber (s : List Char) : Option (ℚ × List Char) :=
  let s := skipSpaces s
  if s = [] then none else strtodParse s

/-- `Variable` from expression_parser.h (the 32-byte name buffer is a
`String`; every name the engine stores is at most 5 characters). -/
structure Variable where
  name : String
  value : ℚ
deriving DecidableEq, Repr

/-- First-match variable lookup (the `strcmp` scan in `evalTerm` and
`getVariableValue`). -/
def lookupVar (vars : List Variable) (id : String) : Option ℚ :=
  (vars.find? (fun v => v.name = id)).map (fun v => v.value)

/-- Identifier character test: `isalnum` or underscore. -/
def isIdentChar (c : Char) : Bool := c.isAlphanum || c = '_'

/-- `parseIdentifier` from expression_parser.cpp. -/
def parseIdentifier (s : List Char) : String × List Char :=
  let s := skipSpaces s
  match s with
  | [] => ("", [])
  | c :: r =>
    if c.isAlpha || c = '_' then
      (String.mk (c :: r.takeWhile isIdentChar), r.dropWhile isIdentChar)
    else ("", c :: r)

/-- Model of libm `pow` restricted to integer exponents, the only exponents
any claim exercises (`zpow` on `ℚ`; `pow` at a non-integer exponent is
irrational in general and is modelled as 0, and `0 ^ -n` is 0 where C
yields infinity — no claim exercises either case). -/
def powQ (b e : ℚ) : ℚ :=
  if e.den = 1 then
    (if 0 ≤ e.num then qpowNat b e.num.toNat else qdiv 1 (qpowNat b (-e.num).toNat))
  else 0

/-- Truncation toward zero on `ℚ` — the semantics of a C cast from a
floating value to an integer type.  `Int.tdiv` truncates toward zero and
`q.den` is positive. -/
def ratTrunc (q : ℚ) : ℤ := q.num.tdiv q.den

/-- Model of libm `fmod`: sign follows the dividend.  C's `fmod(x, 0)` is
NaN, modelled as 0; no claim exercises a zero modulus. -/
def fmodQ (x y : ℚ) : ℚ := if y = 0 then 0 else qsub x (qmul ((ratTrunc (qdiv x y) : ℤ) : ℚ) y)

/-- Transcendental one-argument library calls (`sin`): irrational values no
claim depends on; modelled as the constant 0. -/
def sinQ (_ : ℚ) : ℚ := 0

/-- See `sinQ`. -/
def cosQ (_ : ℚ) : ℚ := 0

/-- See `sinQ`. -/
def tanQ (_ : ℚ) : ℚ := 0

/-- See `sinQ`; the negative-argument error path of `sqrt` is modelled
faithfully in `evalFun1`. -/
def sqrtQ (_ : ℚ) : ℚ := 0

/-- See `sinQ`; the non-positive-argument error path of `log` is modelled
faithfully in `evalFun1`. -/
def logQ (_ : ℚ) : ℚ := 0

/-- See `sinQ`. -/
def expQ (_ : ℚ) : ℚ := 0

/-- Comparison epsilon `0.000001` from expression_parser.cpp. -/
def EPS : ℚ := mkRat 1 1000000

mutual

/-- `evalTerm` from expression_parser.cpp: a primary (number, parenthesis,
identifier or function call — a known variable returns early, skipping the
power and multiplication processing, exactly as the C early `return`),
then right-associative `^`, then the `* / %` loop.  The first component of
the primary result records that early return.  `fuel` bounds the recursion
depth; `evalFuel` at the top level always suffices. -/
def evalTerm (fuel0 : Nat) (vars : List Variable) (s0 : List Char) :
    Except String (ℚ × List Char) :=
  match fuel0 with
  | 0 => .error "fuel"
  | fuel+1 =>
    let s := skipSpaces s0
    let prim : Except String (Bool × ℚ × List Char) :=
      match s with
      | [] => .ok (false, 0, [])
      | c :: r =>
        if c.isDigit || c = '.' || c = '-' || c = '+' then
          match parseNumber (c :: r) with
          | none => .error "Erro ao ler numero"
          | some (v, rest) => .ok (false, v, rest)
        else if c = '(' then
          match evalExpr fuel vars r with
          | .error e => .error e
          | .ok (v, rest) =>
            match skipSpaces rest with
            | ')' :: r2 => .ok (false, v, r2)
            | _ => .error "Parentese nao fechado"
        else if c.isAlpha || c = '_' then
          let idr := parseIdentifier (c :: r)
          if idr.1 = "" then .error "Caractere inesperado"
          else
            match lookupVar vars idr.1 with
            | some v => .ok (true, v, idr.2)
            | none =>
              match skipSpaces idr.2 with
              | '(' :: r2 =>
                if idr.1 = "if" then evalIfCall fuel vars r2
                else if idr.1 = "pow" then evalPowCall fuel vars r2
                else evalFun1 fuel vars idr.1 r2
              | _ => .error ("Variavel ou funcao desconhecida: " ++ idr.1)
        else .ok (false, 0, c :: r)
    match prim with
    | .error e => .error e
    | .ok (true, v, rest) => .ok (v, rest)
    | .ok (false, v, rest) =>
      match skipSpaces rest with
      | '^' :: r2 =>
        match evalTerm fuel vars r2 with
        | .error e => .error e
        | .ok (ex, r3) => evalMulLoop fuel vars (powQ v ex) r3
      | other => evalMulLoop fuel vars v other
termination_by structural fuel0

/-- The `if(condition, whenTrue, whenFalse)` branch of `evalTerm` (entered
with the opening parenthesis already consumed). -/
def evalIfCall (fuel0 : Nat) (vars : List Variable) (s0 : List Char) :
    Except String (Bool × ℚ × List Char) :=
  match fuel0 with
  | 0 => .error "fuel"
  | fuel+1 =>
    let s := skipSpaces s0
    match evalExpr fuel vars s with
    | .error e => .error e
    | .ok (cond, r1) =>
      match skipSpaces r1 with
      | ',' :: r2 =>
        match evalExpr fuel vars (skipSpaces r2) with
        | .error e => .error e
        | .ok (tv, r3) =>
          match skipSpaces r3 with
          | ',' :: r4 =>
            match evalExpr fuel vars (skipSpaces r4) with
            | .error e => .error e
            | .ok (fv, r5) =>
              match skipSpaces r5 with
              | ')' :: r6 => .ok (false, if qabs cond > EPS then tv else fv, r6)
              | _ => .error "Parentese nao fechado na funcao if"
          | _ => .error "Funcao if requer 3 argumentos separados por virgula"
      | _ => .error "Funcao if requer 3 argumentos separados por virgula"
termination_by structural fuel0

/-- The `pow` branch of `evalTerm`.  Faithful to the source quirk: the
opening parenthesis of the call was already consumed, yet the branch
demands another `(` before the arguments, so `pow(2,3)` is rejected and
only `pow((2,3)` parses. -/
def evalPowCall (fuel0 : Nat) (vars : List Variable) (s0 : List Char) :
    Except String (Bool × ℚ × List Char) :=
  match fuel0 with
  | 0 => .error "fuel"
  | fuel+1 =>
    match skipSpaces s0 with
    | '(' :: r0 =>
      match evalExpr fuel vars (skipSpaces r0) with
      | .error e => .error e
      | .ok (base, r1) =>
        match skipSpaces r1 with
        | ',' :: r2 =>
          match evalExpr fuel vars (skipSpaces r2) with
          | .error e => .error e
          | .ok (ex, r3) =>
            match skipSpaces r3 with
            | ')' :: r4 => .ok (false, powQ base ex, r4)
            | _ => .error "Parentese nao fechado na funcao pow"
        | _ => .error "Funcao pow requer 2 argumentos separados por virgula"
    | _ => .error "Funcao pow requer parentese"
termination_by structural fuel0

/-- The one-argument function branch of `evalTerm` (`sin cos tan sqrt abs
log exp`, unknown names are an error). -/
def evalFun1 (fuel0 : Nat) (vars : List Variable) (id : String) (s0 : List Char) :
    Except String (Bool × ℚ × List Char) :=
  match fuel0 with
  | 0 => .error "fuel"
  | fuel+1 =>
    match evalExpr fuel vars s0 with
    | .error e => .error e
    | .ok (arg, rest) =>
      match skipSpaces rest with
      | ')' :: r2 =>
        if id = "sin" then .ok (false, sinQ arg, r2)
        else if id = "cos" then .ok (false, cosQ arg, r2)
        else if id = "tan" then .ok (false, tanQ arg, r2)
        else if id = "sqrt" then
          if arg < 0 then .error "Raiz quadrada de numero negativo"
          else .ok (false, sqrtQ arg, r2)
        else if id = "abs" then .ok (false, qabs arg, r2)
        else if id = "log" then
          if arg ≤ 0 then .error "Log de numero <= 0"
          else .ok (false, logQ arg, r2)
        else if id = "exp" then .ok (false, expQ arg, r2)
        else .error ("Funcao desconhecida: " ++ id)
      | _ => .error "Parentese nao fechado"
termination_by structural fuel0

/-- The `* / %` while-loop at the end of `evalTerm`.  The right operand is
a full recursive `evalTerm`, as in the source. -/
def evalMulLoop (fuel0 : Nat) (vars : List Variable) (acc : ℚ) (s0 : List Char) :
    Except String (ℚ × List Char) :=
  match fuel0 with
  | 0 => .error "fuel"
  | fuel+1 =>
    match skipSpaces s0 with
    | [] => .ok (acc, [])
    | c :: r =>
      if c = '*' || c = '/' || c = '%' then
        match evalTerm fuel vars r with
        | .error e => .error e
        | .ok (right, r2) =>
          if c = '*' then evalMulLoop fuel vars (qmul acc right) r2
          else if c = '/' then
            if right = 0 then .error "Divisao por zero"
            else evalMulLoop fuel vars (qdiv acc right) r2
          else evalMulLoop fuel vars (fmodQ acc right) r2
      else .ok (acc, c :: r)
termination_by structural fuel0

/-- The `+ -` while-loop of `evalComparison`, shared by its left and right
sides. -/
def evalAddLoop (fuel0 : Nat) (vars : List Variable) (acc : ℚ) (s0 : List Char) :
    Except String (ℚ × List Char) :=
  match fuel0 with
  | 0 => .error "fuel"
  | fuel+1 =>
    match skipSpaces s0 with
    | [] => .ok (acc, [])
    | c :: r =>
      if c = '+' || c = '-' then
        match evalTerm fuel vars r with
        | .error e => .error e
        | .ok (right, r2) =>
          evalAddLoop fuel vars (if c = '+' then qadd acc right else qsub acc right) r2
      else .ok (acc, c :: r)
termination_by structural fuel0

/-- `evalComparison` from expression_parser.cpp: optional leading sign,
additive chain, then at most one comparison operator whose right side again
has an optional sign and additive chain.  `==` and `!=` use the absolute
difference epsilon; results are 1 or 0. -/
def evalComparison (fuel0 : Nat) (vars : List Variable) (s0 : List Char) :
    Except String (ℚ × List Char) :=
  match fuel0 with
  | 0 => .error "fuel"
  | fuel+1 =>
    let s1 := skipSpaces s0
    let sgn : Bool × List Char :=
      if s1.head? = some '-' then (true, s1.tail)
      else if s1.head? = some '+' then (false, s1.tail)
      else (false, s1)
    match evalTerm fuel vars sgn.2 with
    | .error e => .error e
    | .ok (l0, r0) =>
      match evalAddLoop fuel vars (if sgn.1 then -l0 else l0) r0 with
      | .error e => .error e
      | .ok (left, r1) =>
        match skipSpaces r1 with
        | [] => .ok (left, [])
        | c :: r2 =>
          if c = '>' || c = '<' || c = '=' || c = '!' then
            let two : Bool × List Char :=
              if r2.head? = some '=' then (true, r2.tail) else (false, r2)
            let rsgn : Bool × List Char :=
              if (skipSpaces two.2).head? = some '-' then (true, (skipSpaces two.2).tail)
              else if (skipSpaces two.2).head? = some '+' then (false, (skipSpaces two.2).tail)
              else (false, skipSpaces two.2)
            match evalTerm fuel vars rsgn.2 with
            | .error e => .error e
            | .ok (rv0, rr0) =>
              match evalAddLoop fuel vars (if rsgn.1 then -rv0 else rv0) rr0 with
              | .error e => .error e
              | .ok (right, rr1) =>
                if c = '>' ∧ two.1 then .ok (if left ≥ right then 1 else 0, rr1)
                else if c = '<' ∧ two.1 then .ok (if left ≤ right then 1 else 0, rr1)
                else if c = '=' ∧ two.1 then .ok (if qabs (qsub left right) < EPS then 1 else 0, rr1)
                else if c = '!' ∧ two.1 then .ok (if qabs (qsub left right) ≥ EPS then 1 else 0, rr1)
                else if c = '>' then .ok (if left > right then 1 else 0, rr1)
                else if c = '<' then .ok (if left < right then 1 else 0, rr1)
                else .error "Operador de comparacao invalido"
          else .ok (left, c :: r2)
termination_by structural fuel0

/-- `evalExpression` from expression_parser.cpp: delegates to
`evalComparison`. -/
def evalExpr (fuel0 : Nat) (vars : List Variable) (s : List Char) :
    Except String (ℚ × List Char) :=
  match fuel0 with
  | 0 => .error "fuel"
  | fuel+1 => evalComparison fuel vars s
termination_by structural fuel0

end

/-- Fuel that always suffices for `evalExpr`: between two consumed input
characters the mutual descent passes through at most eight calls. -/
def evalFuel (s : List Char) : Nat := 8 * s.length + 8

/-- `evaluateExpression` from expression_parser.cpp: evaluate, then reject
trailing characters. -/
def evaluateExpression (expression : String) (vars : List Variable) :
    Except String ℚ :=
  match evalExpr (evalFuel expression.data) vars expression.data with
  | .error e => .error e
  | .ok (v, rest) =>
    match skipSpaces rest with
    | [] => .ok v
    | _ => .error "Caracteres extras apos expressao"

/-! ### Device-value substitution (expression_parser.cpp) -/

/-- Decimal digits of a natural number, most significant first (fuel-based
so the kernel can evaluate it; `n + 1` division steps always suffice). -/
def natToDigitsAux : Nat → Nat → List Char → List Char
  | 0, _, acc => acc
  | fuel+1, n, acc =>
    let d := Char.ofNat (48 + n % 10)
    if n < 10 then d :: acc
    else natToDigitsAux fuel (n / 10) (d :: acc)

/-- See `natToDigitsAux`. -/
def natToDigits (n : Nat) : List Char := natToDigitsAux (n + 1) n []

/-- Decimal rendering of an integer (for the index numbers interpolated
into substitution error messages). -/
def intToDigits (z : Int) : List Char :=
  if z < 0 then '-' :: natToDigits (-z).toNat else natToDigits z.toNat

/-- Model of the `%.6f` rendering plus trailing-zero/point stripping that
`substituteDeviceValues` applies to a snapshot value (expression_parser.cpp
lines 624-636).  Ties of the 6-decimal rounding round away from zero here;
`snprintf` rounds the nearest binary double, a difference no claim
exercises. -/
def formatFixed6 (q : ℚ) : List Char :=
  let a := qabs q
  let scaled := (ratTrunc (qadd (qmul a 1000000) (mkRat 1 2))).toNat
  let ipart := scaled / 1000000
  let fpart := scaled % 1000000
  let fds := natToDigits fpart
  let base := natToDigits ipart ++ '.' :: (List.replicate (6 - fds.length) '0' ++ fds)
  let noZeros := (base.reverse.dropWhile (fun c => c = '0')).reverse
  let stripped :=
    match noZeros.reverse with
    | '.' :: r => r.reverse
    | _ => noZeros
  if q < 0 then '-' :: stripped else stripped

/-- `DeviceValues` from expression_parser.h: `deviceCount` and
`registerCounts` mirror the list lengths. -/
structure DeviceValues where
  values : List (List ℚ)
deriving DecidableEq, Repr

/-- One step of `substituteDeviceValues` consumes at least one input
character; `fuel` makes the recursion structural. `acc` is the output
buffer, `outputSize` its capacity (2048 at the call sites). -/
def substAux (outputSize : Nat) (dv : DeviceValues) :
    Nat → List Char → List Char → Except String (List Char)
  | 0, _, acc => .ok acc
  | _+1, [], acc => .ok acc
  | fuel+1, '\x7b' :: afterBrace, acc =>
    match afterBrace with
    | 'd' :: '[' :: r1 =>
      let dp := takeDigits r1
      match dp.2 with
      | ']' :: r2 =>
        match r2 with
        | '[' :: r3 =>
          let rp := takeDigits r3
          match rp.2 with
          | ']' :: r4 =>
            match r4 with
            | '\x7d' :: r5 =>
              let deviceIndex := digitsVal dp.1
              let registerIndex := digitsVal rp.1
              if dp.1 = [] ∨ rp.1 = [] then
                .error (String.mk ("Erro: indices invalidos em d[".data ++
                  natToDigits deviceIndex ++ "][".data ++ natToDigits registerIndex ++ "]".data))
              else if deviceIndex ≥ dv.values.length then
                .error (String.mk ("Erro: indice de dispositivo invalido: ".data ++
                  natToDigits deviceIndex ++ " (max: ".data ++
                  intToDigits ((dv.values.length : Int) - 1) ++ ")".data))
              else if registerIndex ≥ (dv.values.getD deviceIndex []).length then
                .error (String.mk ("Erro: indice de registro invalido: ".data ++
                  natToDigits registerIndex ++ " (max: ".data ++
                  intToDigits (((dv.values.getD deviceIndex []).length : Int) - 1) ++
                  ") para dispositivo ".data ++ natToDigits deviceIndex))
              else
                let value := (dv.values.getD deviceIndex []).getD registerIndex 0
                let valueStr := formatFixed6 value
                if acc.length + valueStr.length ≥ outputSize - 1 then
                  .error "Erro: buffer de saida muito pequeno"
                else substAux outputSize dv fuel r5 (acc ++ valueStr)
            | _ => .error "Erro: esperado \x7d apos d[i][j]"
          | _ => .error "Erro: esperado ] apos indice do registro"
        | _ => .error "Erro: esperado [ apos indice do dispositivo"
      | _ => .error "Erro: esperado ] apos indice do dispositivo"
    | _ =>
      if acc.length ≥ outputSize - 1 then .error "Erro: buffer de saida muito pequeno"
      else substAux outputSize dv fuel afterBrace (acc ++ ['\x7b'])
  | fuel+1, c :: rest, acc =>
    if acc.length ≥ outputSize - 1 then .error "Erro: buffer de saida muito pequeno"
    else substAux outputSize dv fuel rest (acc ++ [c])

/-- `substituteDeviceValues` from expression_parser.cpp: replace each
`\x7bd[i][j]\x7d` by the snapshot value rendered with `formatFixed6`,
copying everything else (a brace not opening a placeholder is copied
literally); out-of-range or malformed placeholders are errors naming the
offending index and the valid range. -/
def substituteDeviceValues (expression : List Char) (dv : DeviceValues)
    (outputSize : Nat) : Except String (List Char) :=
  substAux outputSize dv (expression.length + 1) expression []

/-! ### Assignment resolver

The `AssignmentInfo` consumed by calculations.cpp and web_server.cpp has
the fields `isVariableAssignment` and `targetVariable`, and both callers
invoke an 8-argument `substituteDeviceValues`; the expression_parser.{h,cpp}
shipped under src/ is a stale revision without any of that (its
`parseAssignment` rejects every non-`\x7bd[` destination outright and its
`AssignmentInfo` lacks the two fields), so the translation unit does not
even compile against it.  The resolver is therefore modelled from the
spec, §4.4, reusing the stale source's `=`-scanner and bracket-index
extraction, which §4.4 paraphrases. -/

/-- Whitespace test of Arduino `String.trim` (`isspace`). -/
def isWSp (c : Char) : Bool :=
  c = ' ' || c = '\t' || c = '\n' || c = '\r' || c = '\x0b' || c = '\x0c'

/-- Arduino `String.trim`: strip whitespace from both ends. -/
def trimC (s : List Char) : List Char :=
  ((s.dropWhile isWSp).reverse.dropWhile isWSp).reverse

/-- The left-trim of the right-hand side in `parseAssignment` (space and
tab only, as in the source). -/
def ltrimC (s : List Char) : List Char := s.dropWhile isSpaceTab

/-- The `=`-scanner of `parseAssignment` (expression_parser.cpp lines
687-711, also spec §4.4): the first `=` that is neither preceded by
`= < > !` nor followed by `=` splits the statement; a `==` found with a
plain previous character is skipped whole.  Returns the text before and
after the assignment `=`, or `none`. -/
def findAssignEqAux : Option Char → List Char → List Char →
    Option (List Char × List Char)
  | _, _, [] => none
  | prev, before, c :: rest =>
    if c = '=' then
      if prev = some '=' ∨ prev = some '<' ∨ prev = some '>' ∨ prev = some '!' then
        findAssignEqAux (some '=') (before ++ ['=']) rest
      else if rest.head? = some '=' then
        findAssignEqAux (some '=') (before ++ ['=']) rest
      else some (before, rest)
    else findAssignEqAux (some c) (before ++ [c]) rest

/-- See `findAssignEqAux`. -/
def findAssignEq (s : List Char) : Option (List Char × List Char) :=
  findAssignEqAux none [] s

/-- Index of the first occurrence of `c` at or after position `start`. -/
def indexOfFrom (c : Char) (s : List Char) (start : Nat) : Option Nat :=
  match (s.drop start).findIdx? (fun x => x = c) with
  | some k => some (start + k)
  | none => none

/-- Arduino `String.toInt` (`atol`): optional sign then leading digits,
0 when there are none. -/
def toIntC (s : List Char) : Int :=
  let s := s.dropWhile isWSp
  match s with
  | '-' :: r => -(digitsVal (r.takeWhile Char.isDigit) : Int)
  | '+' :: r => (digitsVal (r.takeWhile Char.isDigit) : Int)
  | _ => (digitsVal (s.takeWhile Char.isDigit) : Int)

/-- `AssignmentInfo`: the record the orchestrator call sites consume.
Modelled from the spec (§4.4) as described in the section comment;
`targetDeviceIndex`/`targetRegisterIndex` keep the C `int` type. -/
structure AssignmentInfo where
  hasAssignment : Bool
  isVariableAssignment : Bool
  targetVariable : String
  targetDeviceIndex : Int
  targetRegisterIndex : Int
  expression : List Char
deriving DecidableEq, Repr

instance : Inhabited AssignmentInfo := ⟨⟨false, false, "", -1, -1, []⟩⟩

/-- The bracket-index extraction of the device-target branch (stale
expression_parser.cpp lines 746-786, spec §4.4 "indices are extracted
positionally"): the trimmed destination is known to start with `\x7bd[`. -/
def extractDeviceTarget (destStr : List Char) : Except String (Int × Int) :=
  match indexOfFrom '[' destStr 2 with
  | none => .error "Erro: formato de destino invalido"
  | some bracket1 =>
    match indexOfFrom ']' destStr bracket1 with
    | none => .error "Erro: formato de destino invalido"
    | some bracket2 =>
      let deviceIndex := toIntC ((destStr.drop (bracket1 + 1)).take (bracket2 - (bracket1 + 1)))
      match indexOfFrom '[' destStr bracket2 with
      | none => .error "Erro: formato de destino invalido"
      | some bracket3 =>
        match indexOfFrom ']' destStr bracket3 with
        | none => .error "Erro: formato de destino invalido"
        | some bracket4 =>
          let registerIndex := toIntC ((destStr.drop (bracket3 + 1)).take (bracket4 - (bracket3 + 1)))
          .ok (deviceIndex, registerIndex)

/-- Modelled from the spec: `parseAssignment` (§4.4).  Scan for the
assignment `=`; no `=` means no assignment.  The trimmed left-hand side is
a device-register target when it opens with `\x7bd[` (length at least 6 —
the stale source's gate), with malformed bracket structure a parse error;
otherwise it is a temporary-variable name truncated to 5 characters.  The
right-hand side is left-trimmed and must be non-empty and at most 2048
characters. -/
def parseAssignment (expression : List Char) : Except String AssignmentInfo :=
  match findAssignEq expression with
  | none => .ok default
  | some (destPart, exprPart) =>
    let destStr := trimC destPart
    let target : Except String (Bool × String × Int × Int) :=
      if destStr.length < 6 ∨ destStr.getD 0 ' ' ≠ '\x7b' ∨ destStr.getD 1 ' ' ≠ 'd' ∨
          destStr.getD 2 ' ' ≠ '[' then
        .ok (true, String.mk (destStr.take 5), -1, -1)
      else
        match extractDeviceTarget destStr with
        | .error e => .error e
        | .ok p => .ok (false, "", p.1, p.2)
    match target with
    | .error e => .error e
    | .ok t =>
      let exprStart := ltrimC exprPart
      if exprStart.length = 0 then .error "Erro: expressao vazia apos o ="
      else if exprStart.length > 2048 then
        .error "Erro: expressao muito grande (max: 2048 caracteres)"
      else
        .ok { hasAssignment := true, isVariableAssignment := t.1,
              targetVariable := t.2.1, targetDeviceIndex := t.2.2.1,
              targetRegisterIndex := t.2.2.2, expression := exprStart }

/-! ### Configuration data model (config.h) and the cycle orchestrator
(calculations.cpp `performCalculations`) -/

/-- `ModbusRegister` from config.h, restricted to the fields the
calculation engine reads (`variableName`, `registerType`, the deprecated
write descriptors and `generateGraph` play no part in any claim). -/
structure ModbusRegister where
  address : Nat
  value : Nat
  isOutput : Bool
  readOnly : Bool
  gain : ℚ
  offset : ℚ
  kalmanEnabled : Bool
  kalmanQ : ℚ
  kalmanR : ℚ
deriving DecidableEq, Repr

instance : Inhabited ModbusRegister :=
  ⟨⟨0, 0, false, false, 1, 0, false, mkRat 1 100, mkRat 1 10⟩⟩

/-- `ModbusDevice` from config.h: `registerCount` mirrors the list
length. -/
structure ModbusDevice where
  slaveAddress : Nat
  enabled : Bool
  deviceName : String
  registers : List ModbusRegister
deriving DecidableEq, Repr

instance : Inhabited ModbusDevice := ⟨⟨0, false, "", []⟩⟩

/-- `SystemConfig` from config.h, restricted to the fields the engine
reads (`deviceCount` mirrors the list length; bus, network, MQTT, RTC and
VPN settings are glue outside every claim). -/
structure SystemConfig where
  devices : List ModbusDevice
  calculationCode : String
deriving DecidableEq, Repr

/-- The snapshot builder at the top of `performCalculations`
(calculations.cpp lines 17-41): `values[i][j] = raw * gain + offset`, with
the smoothing estimate substituted for the raw value when smoothing is
enabled and that register's state is initialized.  `ks i j` models the
global `kalmanStates` matrix. -/
def buildDeviceValues (cfg : SystemConfig) (ks : Nat → Nat → KalmanState ℚ) :
    DeviceValues :=
  ⟨(List.range cfg.devices.length).map fun i =>
    let dev := cfg.devices.getD i default
    (List.range dev.registers.length).map fun j =>
      let reg := dev.registers.getD j default
      let rawValue : ℚ := (reg.value : ℚ)
      let processedValue := qadd (qmul rawValue reg.gain) reg.offset
      if reg.kalmanEnabled && (ks i j).initialized then
        qadd (qmul (ks i j).estimate reg.gain) reg.offset
      else processedValue⟩

/-- One `consolePrint` call site of `performCalculations`
(calculations.cpp); each constructor carries the data the source
interpolates into the message. -/
inductive LogEntry where
  | parseError (line : Nat) (msg : String)
  | substError (line : Nat) (msg : String)
  | evalError (line : Nat) (msg : String)
  | tempVarLimit (line : Nat)
  | tempVarAssigned (line : Nat) (name : String) (value : ℚ)
  | invalidDeviceIndex (line : Nat) (idx : Int)
  | invalidRegisterIndex (line : Nat) (idx : Int)
  | readOnlyTarget (line : Nat)
  | zeroGain (line : Nat)
  | assignmentExecuted (line : Nat) (deviceIndex registerIndex : Nat) (value : ℚ) (raw : Nat)
  | modbusWriteError (line : Nat) (slave : Nat) (addr : Nat) (code : Nat)
  | calcExecuted (line : Nat) (value : ℚ)
  | noOutputFound (line : Nat) (value : ℚ)
deriving DecidableEq, Repr

/-- Cycle-local mutable state of `performCalculations`: the shared
configuration, the temporary-variable table (the C code keeps the
parallel arrays `tempVarNames`/`tempVarValues`/`tempVariables` in
lockstep; one list models them) and the console log. -/
structure CycleState where
  cfg : SystemConfig
  tempVars : List Variable
  logs : List LogEntry
deriving DecidableEq, Repr

/-- `MAX_TEMP_VARS` from calculations.cpp. -/
def MAX_TEMP_VARS : Nat := 50

/-- Update the first table entry carrying the name (the `strcmp` loop with
`break` of calculations.cpp lines 150-159). -/
def updateFirst : List Variable → String → ℚ → List Variable
  | [], _, _ => []
  | v :: rest, n, r =>
    if v.name = n then { v with value := r } :: rest else v :: updateFirst rest n r

/-- The temporary-variable store block of calculations.cpp lines 149-178:
update an existing entry, else append below the `MAX_TEMP_VARS` bound;
`true` in the second component is the limit warning. -/
def storeTempVar (tv : List Variable) (name : String) (result : ℚ) :
    List Variable × Bool :=
  if tv.any (fun v => v.name = name) then (updateFirst tv name result, false)
  else if tv.length < MAX_TEMP_VARS then (tv ++ [⟨name, result⟩], false)
  else (tv, true)

/-- The inverse linear conversion of calculations.cpp line 235:
`raw = (result - offset) / gain`. -/
def inverseConvert (result offset gain : ℚ) : ℚ := qdiv (qsub result offset) gain

/-- The clamp to `[0, 65535]` of calculations.cpp lines 237-239 (and
277-279). -/
def clampQ (v : ℚ) : ℚ :=
  let v := if v < 0 then 0 else v
  if v > 65535 then 65535 else v

/-- Clamp then convert to `uint16_t`: a C float-to-unsigned cast truncates
toward zero. -/
def clampToU16 (v : ℚ) : Nat := (ratTrunc (clampQ v)).toNat

/-- Write a new raw value into register `ri` of device `di`. -/
def setRegisterValue (cfg : SystemConfig) (di ri : Nat) (newValue : Nat) :
    SystemConfig :=
  let dev := cfg.devices.getD di default
  let reg := dev.registers.getD ri default
  let reg2 := { reg with value := newValue }
  let dev2 := { dev with registers := dev.registers.set ri reg2 }
  { cfg with devices := cfg.devices.set di dev2 }

/-- Index of the first output-flagged, non-read-only register in a
register list. -/
def firstOutputIdx : List ModbusRegister → Option Nat
  | [] => none
  | r :: rest =>
    if r.isOutput && !r.readOnly then some 0
    else (firstOutputIdx rest).map (fun j => j + 1)

/-- The legacy fallback scan of calculations.cpp lines 271-292: first
enabled device, in order, holding an output-flagged non-read-only
register (a disabled device is skipped but keeps its index). -/
def findFirstOutput : List ModbusDevice → Option (Nat × Nat)
  | [] => none
  | d :: rest =>
    if d.enabled then
      match firstOutputIdx d.registers with
      | some j => some (0, j)
      | none => (findFirstOutput rest).map (fun p => (p.1 + 1, p.2))
    else (findFirstOutput rest).map (fun p => (p.1 + 1, p.2))

/-- The device-register write branch of `performCalculations`
(calculations.cpp lines 189-266): validate indices and writability, apply
the inverse conversion (zero gain is an error), clamp, truncate, store the
raw value and issue the bus write.  `modbusWrite slave addr value` models
`node.writeSingleRegister` (0 is `ku8MBSuccess`). -/
def deviceWriteStep (modbusWrite : Nat → Nat → Nat → Nat) (lineNumber : Nat)
    (ai : AssignmentInfo) (result : ℚ) (st : CycleState) : CycleState :=
  if ai.targetDeviceIndex < 0 ∨ ai.targetDeviceIndex ≥ (st.cfg.devices.length : Int) then
    { st with logs := st.logs ++ [.invalidDeviceIndex lineNumber ai.targetDeviceIndex] }
  else
    let di := ai.targetDeviceIndex.toNat
    let dev := st.cfg.devices.getD di default
    if ai.targetRegisterIndex < 0 ∨ ai.targetRegisterIndex ≥ (dev.registers.length : Int) then
      { st with logs := st.logs ++ [.invalidRegisterIndex lineNumber ai.targetRegisterIndex] }
    else
      let ri := ai.targetRegisterIndex.toNat
      let targetReg := dev.registers.getD ri default
      if targetReg.readOnly then
        { st with logs := st.logs ++ [.readOnlyTarget lineNumber] }
      else if targetReg.gain = 0 then
        { st with logs := st.logs ++ [.zeroGain lineNumber] }
      else
        let valueToWrite := inverseConvert result targetReg.offset targetReg.gain
        let raw := clampToU16 valueToWrite
        let cfg2 := setRegisterValue st.cfg di ri raw
        let writeResult := modbusWrite dev.slaveAddress targetReg.address raw
        if writeResult = 0 then
          { st with
            cfg := cfg2
            logs := st.logs ++ [.assignmentExecuted lineNumber di ri result raw] }
        else
          { st with
            cfg := cfg2
            logs := st.logs ++
              [.modbusWriteError lineNumber dev.slaveAddress targetReg.address writeResult] }

/-- The legacy no-assignment fallback of `performCalculations`
(calculations.cpp lines 269-298).  Note `foundOutput` is a local of the
while-loop body, reset for every statement: the scan-and-write runs for
every assignment-less line, although the comment above it reads "mas
apenas na primeira linha sem atribuicao" (only on the first line without
assignment). -/
def fallbackStep (lineNumber : Nat) (result : ℚ) (st : CycleState) : CycleState :=
  match findFirstOutput st.cfg.devices with
  | some p =>
    let clamped := clampQ result
    { st with
      cfg := setRegisterValue st.cfg p.1 p.2 (ratTrunc clamped).toNat
      logs := st.logs ++ [.calcExecuted lineNumber clamped] }
  | none =>
    { st with logs := st.logs ++ [.noOutputFound lineNumber result] }

/-- The body of the statement loop of `performCalculations`
(calculations.cpp lines 92-300) for one non-blank, non-comment line.  The
shipped expression_parser.cpp lacks the 8-argument, temp-var-aware
`substituteDeviceValues` overload this call site names; per the spec
(§4.3 "an identifier not followed by `(` is looked up in the
temporary-variable table", §4.5.d "evaluate ... with the
temporary-variable table") temporary variables are resolved during
evaluation, so the table is passed to `evaluateExpression` here. -/
def processStatement (modbusWrite : Nat → Nat → Nat → Nat) (dv : DeviceValues)
    (lineNumber : Nat) (line : List Char) (st : CycleState) : CycleState :=
  match parseAssignment line with
  | .error msg => { st with logs := st.logs ++ [.parseError lineNumber msg] }
  | .ok ai =>
    let expressionToProcess := if ai.hasAssignment then ai.expression else line
    match substituteDeviceValues expressionToProcess dv 2048 with
    | .error msg => { st with logs := st.logs ++ [.substError lineNumber msg] }
    | .ok processedExpression =>
      match evaluateExpression (String.mk processedExpression) st.tempVars with
      | .error msg => { st with logs := st.logs ++ [.evalError lineNumber msg] }
      | .ok result =>
        if ai.hasAssignment then
          if ai.isVariableAssignment then
            let varName := String.mk (ai.targetVariable.data.take 5)
            let p := storeTempVar st.tempVars varName result
            { st with
              tempVars := p.1
              logs := st.logs ++ (if p.2 then [LogEntry.tempVarLimit lineNumber] else []) ++
                [.tempVarAssigned lineNumber varName result] }
          else
            deviceWriteStep modbusWrite lineNumber ai result st
        else
          fallbackStep lineNumber result st

/-- The line loop of `performCalculations` (calculations.cpp lines
64-301): trim each line, skip blank and `#`-comment lines — the source
increments `lineNumber` only on the processing paths, never on the two
skip paths — and cap a processed line at 1023 characters (the `strncpy`
into `lineBuffer`). -/
def processLines (modbusWrite : Nat → Nat → Nat → Nat) (dv : DeviceValues) :
    List (List Char) → Nat → CycleState → CycleState
  | [], _, st => st
  | l :: rest, lineNumber, st =>
    let line := trimC l
    if line.length = 0 then processLines modbusWrite dv rest lineNumber st
    else if line.getD 0 ' ' = '#' then processLines modbusWrite dv rest lineNumber st
    else
      processLines modbusWrite dv rest (lineNumber + 1)
        (processStatement modbusWrite dv lineNumber (line.take 1023) st)

/-- Newline split of the script text (the `indexOf`-driven while loop of
calculations.cpp lines 64-76; a trailing newline yields one extra empty
segment here, which the blank-line skip discards exactly as the C loop's
bound does). -/
def splitOnNl : List Char → List (List Char)
  | [] => [[]]
  | c :: rest =>
    let r := splitOnNl rest
    if c = '\n' then [] :: r else (c :: r.headD []) :: r.tail

/-- `performCalculations` from calculations.cpp: no-op on an empty script,
else build the snapshot once, reset the temporary-variable table and run
every statement in source order.  Returns the final configuration and the
console log. -/
def performCalculations (modbusWrite : Nat → Nat → Nat → Nat)
    (cfg : SystemConfig) (ks : Nat → Nat → KalmanState ℚ) :
    SystemConfig × List LogEntry :=
  if cfg.calculationCode.data.length = 0 then (cfg, [])
  else
    let dv := buildDeviceValues cfg ks
    let final := processLines modbusWrite dv (splitOnNl cfg.calculationCode.data) 1
      ⟨cfg, [], []⟩
    (final.cfg, final.logs)

/-- An error `consolePrint` of the cycle (the messages opening with
"Erro"); `tempVarLimit` and `noOutputFound` are the two "Aviso" warnings
and the remaining constructors are success logs. -/
def LogEntry.isError : LogEntry → Bool
  | .parseError _ _ => true
  | .substError _ _ => true
  | .evalError _ _ => true
  | .invalidDeviceIndex _ _ => true
  | .invalidRegisterIndex _ _ => true
  | .readOnlyTarget _ => true
  | .zeroGain _ => true
  | .modbusWriteError _ _ _ _ => true
  | _ => false

/-- The line number a log entry reports. -/
def LogEntry.line : LogEntry → Nat
  | .parseError n _ => n
  | .substError n _ => n
  | .evalError n _ => n
  | .tempVarLimit n => n
  | .tempVarAssigned n _ _ => n
  | .invalidDeviceIndex n _ => n
  | .invalidRegisterIndex n _ => n
  | .readOnlyTarget n => n
  | .zeroGain n => n
  | .assignmentExecuted n _ _ _ _ => n
  | .modbusWriteError n _ _ _ => n
  | .calcExecuted n _ => n
  | .noOutputFound n _ => n

/-! ### Shared-State Guard model (config.cpp, main.cpp, web_server.cpp)

`g_configMutex` is a recursive FreeRTOS mutex taken through
`lockConfig`/`unlockConfig`; `g_processingPaused` and `g_cycleInProgress`
are the cooperative pause flags declared next to it.  Each task's code
path is abstracted to the sequence of guard-relevant actions its source
performs, in program order. -/

/-- A guard-relevant action of a code path. -/
inductive GuardAction where
  | lockAcquire (timeoutMs : Option Nat)
  | lockRelease
  | setPauseFlag (b : Bool)
  | setCycleFlag (b : Bool)
  | waitCycleClear
  | sharedStateStep (what : String)
deriving DecidableEq, Repr

/-- The calculation tick of `loop` (main.cpp lines 231-247): the three
shared-state phases run back to back.  No call to
`lockConfig`/`unlockConfig` and no write to `g_cycleInProgress` occurs
anywhere in main.cpp, calculations.cpp or modbus_handler.cpp — the flag is
declared in config.cpp and only ever read (web_server.cpp wait loops). -/
def cycleTickActions : List GuardAction :=
  [.sharedStateStep "readAllDevices",
   .sharedStateStep "performCalculations",
   .sharedStateStep "writeOutputRegisters"]

/-- The guard actions of `handleSaveConfig` on its success path
(web_server.cpp lines 538-553, releasing at lines 1009-1011). -/
def handleSaveConfigActions : List GuardAction :=
  [.setPauseFlag true, .waitCycleClear, .lockAcquire (some 100),
   .sharedStateStep "mutate and persist configuration",
   .lockRelease, .setPauseFlag false]

/-- Recursive-mutex hold depth at which each action of a trace starts. -/
def guardDepths (depth : Nat) : List GuardAction → List Nat
  | [] => []
  | a :: rest =>
    depth :: (match a with
      | .lockAcquire _ => guardDepths (depth + 1) rest
      | .lockRelease => guardDepths (depth - 1) rest
      | _ => guardDepths depth rest)

/-- Does an action acquire the guard? -/
def GuardAction.isAcquire : GuardAction → Bool
  | .lockAcquire _ => true
  | _ => false

/-- Does an action write `g_cycleInProgress`? -/
def GuardAction.isSetCycleFlag : GuardAction → Bool
  | .setCycleFlag _ => true
  | _ => false

/-! ### Concrete fixtures used by the claim theorems -/

/-- A register store stub whose writes always succeed (`ku8MBSuccess`). -/
def alwaysOkWrite : Nat → Nat → Nat → Nat := fun _ _ _ => 0

/-- The all-uninitialized smoothing matrix — the state after `setup`
(main.cpp lines 126-130) has run `kalmanReset` on every register. -/
def ksUninit : Nat → Nat → KalmanState ℚ := fun _ _ => default

/-- An enabled output register (gain 1, offset 0, raw 0). -/
def outputRegister : ModbusRegister :=
  { address := 7, value := 0, isOutput := true, readOnly := false, gain := 1,
    offset := 0, kalmanEnabled := false, kalmanQ := mkRat 1 100, kalmanR := mkRat 1 10 }

/-- One enabled device holding `outputRegister`. -/
def outputDevice : ModbusDevice :=
  { slaveAddress := 1, enabled := true, deviceName := "dev",
    registers := [outputRegister] }

/-- Fixture for the legacy-fallback claim: two assignment-less lines and
one enabled output register. -/
def twoLineFallbackCfg : SystemConfig :=
  { devices := [outputDevice], calculationCode := "1\n2" }

/-- Fixture for the error-isolation claim: three lines, the second
dividing by zero. -/
def threeLineCfg : SystemConfig :=
  { devices := [], calculationCode := "a=1\nb=1/0\nc=3" }

/-- Fixture for the line-counter claim: a blank first line, then a
statement whose evaluation fails. -/
def blankThenErrorCfg : SystemConfig :=
  { devices := [], calculationCode := "\n1/0" }

/-- Is a script line skipped by the statement loop (blank after trimming,
or a `#` comment)? -/
def skippableLine (l : List Char) : Bool :=
  (trimC l).length = 0 || (trimC l).getD 0 ' ' = '#'

/-- Would this character, standing right before an `=`, fuse with it into
a comparison operator for the `=`-scanner? -/
def blocksAssignEq (c : Char) : Bool :=
  c = '=' || c = '<' || c = '>' || c = '!'

end SensorHu

deriving instance DecidableEq for Except

namespace SensorHu

/-! ### General lemmas -/

theorem qadd_eq (a b : ℚ) : qadd a b = a + b := (Rat.add_def' a b).symm

theorem qsub_eq (a b : ℚ) : qsub a b = a - b := (Rat.sub_def' a b).symm

theorem qmul_eq (a b : ℚ) : qmul a b = a * b := by
  rw [qmul, Rat.mul_def, Rat.normalize_eq_mkRat]

theorem qdiv_eq (a b : ℚ) : qdiv a b = a / b := (Rat.div_def' a b).symm

theorem qabs_eq (q : ℚ) : qabs q = |q| := by
  rw [qabs]
  rcases lt_or_ge q 0 with h | h
  · simp [h, abs_of_neg h]
  · simp [not_lt.mpr h, abs_of_nonneg h]

theorem qpowNat_eq (b : ℚ) (n : Nat) : qpowNat b n = b ^ n := by
  induction n with
  | zero => rfl
  | succ n ih => rw [qpowNat, qmul_eq, ih, pow_succ, mul_comm]

end SensorHu

namespace SensorHu

/-! ### Claim theorems -/

/-- C7: the evaluator implements the specified precedence and
associativity: the text 2+3*4 yields 14, (2+3)*4 yields 20, and
2^3^2 yields 512 (right-associative power binding tighter than the
surrounding additive and multiplicative structure of these inputs). -/
theorem operator_precedence_examples :
    evaluateExpression "2+3*4" [] = .ok 14 ∧
    evaluateExpression "(2+3)*4" [] = .ok 20 ∧
    evaluateExpression "2^3^2" [] = .ok 512 := by
  refine ⟨by decide, by decide, by decide⟩

/-- C4: errors are scoped to the statement that produced them — on the
three-line script whose line 2 divides by zero, line 1 and line 3 still
execute and log their success, and exactly one error entry is produced,
reported for line 2. -/
theorem three_line_error_isolation :
    (performCalculations alwaysOkWrite threeLineCfg ksUninit).2 =
      [.tempVarAssigned 1 "a" 1,
       .evalError 2 "Divisao por zero",
       .tempVarAssigned 3 "c" 3] ∧
    ((performCalculations alwaysOkWrite threeLineCfg ksUninit).2.countP
      (fun e => e.isError)) = 1 ∧
    ((performCalculations alwaysOkWrite threeLineCfg ksUninit).2.filter
      (fun e => e.isError)).all (fun e => e.line = 2) = true := by
  refine ⟨by decide, by decide, by decide⟩

/-- C1: the legacy no-assignment fallback fires for every assignment-less
statement, not only the first — with two assignment-less lines and one
enabled output register, both lines write (the register ends at the second
line's result, 2, with two fallback success logs), where the claim (and
the source's own comment, calculations.cpp line 270) predicts a single
write leaving the register at 1. -/
theorem fallback_writes_every_assignmentless_line :
    (((performCalculations alwaysOkWrite twoLineFallbackCfg ksUninit).1.devices.getD
        0 default).registers.getD 0 default).value = 2 ∧
    (performCalculations alwaysOkWrite twoLineFallbackCfg ksUninit).2 =
      [.calcExecuted 1 1, .calcExecuted 2 2] := by
  refine ⟨by decide, by decide⟩

/-- C2: the calculation tick of `loop` holds the Shared-State Guard at no
point — its trace contains no `lockConfig` acquisition and every
shared-state phase starts at mutex depth 0 — and neither the cycle nor the
administrative save path ever writes `g_cycleInProgress`, while the save
handler does take the guard; so the claimed mutual exclusion between the
cycle and an administrative mutation is not established by the code. -/
theorem cycle_never_holds_guard :
    guardDepths 0 cycleTickActions = [0, 0, 0] ∧
    cycleTickActions.all (fun a => !a.isAcquire) = true ∧
    (cycleTickActions ++ handleSaveConfigActions).all
      (fun a => !a.isSetCycleFlag) = true ∧
    handleSaveConfigActions.countP (fun a => a.isAcquire) = 1 := by
  refine ⟨by decide, by decide, by decide, by decide⟩

/-- C9 counterexample: on the script whose first line is blank and whose
second line divides by zero, the single error is reported for line 1, not
for line 2, the statement's actual position in the script text — the
counter does not advance on the skipped blank line. -/
theorem line_counter_skips_blank :
    (performCalculations alwaysOkWrite blankThenErrorCfg ksUninit).2 =
      [.evalError 1 "Divisao por zero"] ∧
    ((performCalculations alwaysOkWrite blankThenErrorCfg ksUninit).2.all
      (fun e => e.line = 1)) = true := by
  refine ⟨by decide, by decide⟩

/-- C5 counterexample: a NaN process-noise argument is not replaced by the
documented default — the filter result differs from the default-Q result
(it is NaN), refuting the claim that any non-finite Q is replaced. -/
theorem kalman_nan_not_replaced :
    (kalmanFilter ⟨.fin 0, .fin 1, true⟩ (.fin 1) .nan (.fin (mkRat 1 10))).2 ≠
      (kalmanFilter ⟨.fin 0, .fin 1, true⟩ (.fin 1) KALMAN_Q_DEFAULT
        (.fin (mkRat 1 10))).2 ∧
    (kalmanFilter ⟨.fin 0, .fin 1, true⟩ (.fin 1) .nan (.fin (mkRat 1 10))).2 =
      .nan := by
  refine ⟨by decide, by decide⟩

end SensorHu

namespace SensorHu

/-! ### Supporting lemmas for the remaining claims -/

theorem skipSpaces_eq_nil (s : List Char) (h : ∀ c ∈ s, c = ' ' ∨ c = '\t') :
    skipSpaces s = [] := by
  induction s with
  | nil => rfl
  | cons c rest ih =>
    have hc := h c (List.mem_cons_self c rest)
    have hb : isSpaceTab c = true := by
      rcases hc with h1 | h1 <;> simp [isSpaceTab, h1]
    rw [skipSpaces, if_pos hb]
    exact ih (fun x hx => h x (List.mem_cons_of_mem _ hx))

theorem evalExpr_ws (m : Nat) (vars : List Variable) (s : List Char)
    (h : skipSpaces s = []) : evalExpr (m+4) vars s = .ok (0, []) := by
  simp [evalExpr, evalComparison, evalTerm, evalMulLoop, evalAddLoop, h, skipSpaces]

end SensorHu

namespace SensorHu

/-- C10: an empty input — or one consisting only of spaces and tabs —
evaluates successfully to 0.0 rather than erroring, and a missing operand
after a binary operator silently contributes 0.0: "5+" evaluates to 5. -/
theorem empty_expression_ok_zero :
    (∀ s : String, (∀ c ∈ s.data, c = ' ' ∨ c = '\t') →
      evaluateExpression s [] = .ok 0) ∧
    evaluateExpression "5+" [] = .ok 5 := by
  constructor
  · intro s h
    have hs : skipSpaces s.data = [] := skipSpaces_eq_nil _ h
    obtain ⟨m, hm⟩ : ∃ m, evalFuel s.data = m + 4 :=
      ⟨8 * s.data.length + 4, by simp [evalFuel]⟩
    rw [evaluateExpression, hm, evalExpr_ws m [] s.data hs]
    rfl
  · decide

/-- C10 witness: the theorem applied to a concrete blank input. -/
theorem empty_expression_ok_zero_witness :
    evaluateExpression " \t " [] = .ok 0 :=
  empty_expression_ok_zero.1 " \t " (by decide)

/-- C9 amended: the running line counter advances only for processed
statements — blank and comment lines are invisible to the cycle: deleting
them from the line list leaves the resulting state, including every
reported line number, unchanged, so the number reported for a statement is
its rank among non-blank, non-comment lines rather than its physical
position. -/
theorem skip_lines_invisible (mw : Nat → Nat → Nat → Nat) (dv : DeviceValues)
    (lines : List (List Char)) (n : Nat) (st : CycleState) :
    processLines mw dv (lines.filter (fun l => !skippableLine l)) n st =
      processLines mw dv lines n st := by
  induction lines generalizing n st with
  | nil => rfl
  | cons l rest ih =>
    rw [List.filter_cons]
    by_cases h1 : (trimC l).length = 0
    · have hsk : skippableLine l = true := by simp [skippableLine, h1]
      rw [hsk]
      simp only [Bool.not_true, Bool.false_eq_true, if_false]
      rw [ih]
      conv_rhs => rw [processLines]
      rw [if_pos h1]
    · by_cases h2 : (trimC l).getD 0 ' ' = '#'
      · have hsk : skippableLine l = true := by
          simp only [skippableLine, Bool.or_eq_true, decide_eq_true_eq]
          exact Or.inr h2
        rw [hsk]
        simp only [Bool.not_true, Bool.false_eq_true, if_false]
        rw [ih]
        conv_rhs => rw [processLines]
        rw [if_neg h1, if_pos h2]
      · have hsk : skippableLine l = false := by
          simp only [skippableLine, Bool.or_eq_false_iff, decide_eq_false_iff_not]
          exact ⟨h1, h2⟩
        rw [hsk]
        simp only [Bool.not_false, if_true]
        rw [processLines, if_neg h1, if_neg h2, ih]
        conv_rhs => rw [processLines]
        rw [if_neg h1, if_neg h2]

/-- C8 counterexample: writing result 2 through a register with gain 2 and
offset 1 computes raw (2-1)/2 = 0.5 but stores the truncated uint16 0, and
the forward conversion of the stored value gives 1, not 2 — off by 1, far
beyond floating rounding. -/
theorem roundtrip_fails_on_stored_raw :
    clampToU16 (inverseConvert 2 1 2) = 0 ∧
    ((clampToU16 (inverseConvert 2 1 2) : ℚ) * 2 + 1) ≠ 2 := by
  have h : clampToU16 (inverseConvert 2 1 2) = 0 := by decide
  exact ⟨h, by rw [h]; norm_num⟩

end SensorHu

namespace SensorHu

theorem ratTrunc_natCast (k : ℕ) : ratTrunc (k : ℚ) = k := by
  rw [ratTrunc, Rat.num_natCast, Rat.den_natCast]
  simp

/-- C8 amended: for gain 2 and offset 1 and every result R in
[1, 131071], the computed raw value is exactly (R-1)/2, it lies in
[0, 65535] so the clamp is a no-op, and the forward conversion of that
computed raw reproduces R exactly; the *stored* uint16 register reproduces
R exactly precisely in the cases where (R-1)/2 is already an integer (the
counterexample shows a non-integer case off by 1). -/
theorem inverse_roundtrip_amended (R : ℚ) (h1 : 1 ≤ R) (h2 : R ≤ 131071) :
    inverseConvert R 1 2 = (R - 1) / 2 ∧
    0 ≤ (R - 1) / 2 ∧ (R - 1) / 2 ≤ 65535 ∧
    ((R - 1) / 2) * 2 + 1 = R ∧
    (∀ k : ℕ, (R - 1) / 2 = (k : ℚ) →
      ((clampToU16 (inverseConvert R 1 2) : ℚ) * 2 + 1) = R) := by
  have hinv : inverseConvert R 1 2 = (R - 1) / 2 := by
    rw [inverseConvert, qsub_eq, qdiv_eq]
  refine ⟨hinv, by linarith, by linarith, by ring, ?_⟩
  intro k hk
  have hb : (R - 1) / 2 ≤ 65535 := by linarith
  have hk65535 : (k : ℚ) ≤ 65535 := hk ▸ hb
  have hclamp : clampQ ((k : ℚ)) = (k : ℚ) := by
    simp only [clampQ]
    have e1 : (if (k : ℚ) < 0 then (0 : ℚ) else (k : ℚ)) = (k : ℚ) :=
      if_neg (not_lt.mpr (Nat.cast_nonneg k))
    rw [e1, if_neg (not_lt.mpr hk65535)]
  have hstored : clampToU16 (inverseConvert R 1 2) = k := by
    rw [hinv, hk, clampToU16, hclamp, ratTrunc_natCast]
    exact Int.toNat_natCast k
  rw [hstored]
  have hR : R = 2 * (k : ℚ) + 1 := by
    field_simp at hk
    linarith
  rw [hR]; ring

/-- C8 witness: the theorem at R = 5, whose computed raw 2 is integral. -/
theorem inverse_roundtrip_amended_witness :
    inverseConvert 5 1 2 = (5 - 1) / 2 ∧
    ((clampToU16 (inverseConvert 5 1 2) : ℚ) * 2 + 1) = 5 :=
  ⟨(inverse_roundtrip_amended 5 (by norm_num) (by norm_num)).1,
   (inverse_roundtrip_amended 5 (by norm_num) (by norm_num)).2.2.2.2 2 (by norm_num)⟩

end SensorHu

namespace SensorHu

/-- C6: every snapshot entry is the linear conversion `raw * gain +
offset` of the register's cached raw value, except that when that
register's smoothing is enabled and its smoothing state is initialized the
smoothing estimate replaces the raw value before the conversion. -/
theorem snapshot_entry_formula (cfg : SystemConfig)
    (ks : Nat → Nat → KalmanState ℚ) (i j : Nat)
    (hi : i < cfg.devices.length)
    (hj : j < ((cfg.devices.getD i default).registers).length) :
    ((buildDeviceValues cfg ks).values.getD i []).getD j 0 =
      (if ((cfg.devices.getD i default).registers.getD j default).kalmanEnabled = true ∧
          (ks i j).initialized = true then
        (ks i j).estimate *
          ((cfg.devices.getD i default).registers.getD j default).gain +
          ((cfg.devices.getD i default).registers.getD j default).offset
      else
        (((cfg.devices.getD i default).registers.getD j default).value : ℚ) *
          ((cfg.devices.getD i default).registers.getD j default).gain +
          ((cfg.devices.getD i default).registers.getD j default).offset) := by
  have hlen1 : i < ((List.range cfg.devices.length).map (fun i =>
      let dev := cfg.devices.getD i default
      (List.range dev.registers.length).map fun j =>
        let reg := dev.registers.getD j default
        let rawValue : ℚ := (reg.value : ℚ)
        let processedValue := qadd (qmul rawValue reg.gain) reg.offset
        if reg.kalmanEnabled && (ks i j).initialized then
          qadd (qmul (ks i j).estimate reg.gain) reg.offset
        else processedValue)).length := by
    simpa using hi
  rw [buildDeviceValues]
  rw [List.getD_eq_getElem _ _ hlen1]
  rw [List.getElem_map, List.getElem_range]
  have hlen2 : j < ((List.range ((cfg.devices.getD i default).registers).length).map
      (fun j =>
        let reg := (cfg.devices.getD i default).registers.getD j default
        let rawValue : ℚ := (reg.value : ℚ)
        let processedValue := qadd (qmul rawValue reg.gain) reg.offset
        if reg.kalmanEnabled && (ks i j).initialized then
          qadd (qmul (ks i j).estimate reg.gain) reg.offset
        else processedValue)).length := by
    simpa using hj
  rw [List.getD_eq_getElem _ _ hlen2]
  rw [List.getElem_map, List.getElem_range]
  by_cases hk : ((cfg.devices.getD i default).registers.getD j default).kalmanEnabled = true ∧
      (ks i j).initialized = true
  · rw [if_pos hk]
    simp only [hk.1, hk.2, Bool.and_self, if_true, qadd_eq, qmul_eq]
  · rw [if_neg hk]
    have hb : (((cfg.devices.getD i default).registers.getD j default).kalmanEnabled &&
        (ks i j).initialized) = false := by
      cases h1 : ((cfg.devices.getD i default).registers.getD j default).kalmanEnabled with
      | false => rfl
      | true =>
        cases h2 : (ks i j).initialized with
        | false => rfl
        | true => exact absurd ⟨h1, h2⟩ hk
    simp only [hb, Bool.false_eq_true, if_false, qadd_eq, qmul_eq]

end SensorHu

namespace SensorHu

/-- C6 witness: the theorem applied to a one-register configuration with
smoothing enabled and an initialized state (estimate 3, gain 2, offset 1):
the snapshot entry is 3 * 2 + 1 = 7, not the raw-based 10 * 2 + 1. -/
theorem snapshot_entry_formula_witness :
    ((buildDeviceValues
      ⟨[⟨1, true, "d", [⟨0, 10, false, false, 2, 1, true, mkRat 1 100, mkRat 1 10⟩]⟩], ""⟩
      (fun _ _ => ⟨3, 1, true⟩)).values.getD 0 []).getD 0 0 = 7 := by
  have h := snapshot_entry_formula
    ⟨[⟨1, true, "d", [⟨0, 10, false, false, 2, 1, true, mkRat 1 100, mkRat 1 10⟩]⟩], ""⟩
    (fun _ _ => ⟨3, 1, true⟩) 0 0 (by decide) (by decide)
  rw [h]
  norm_num

end SensorHu

namespace SensorHu

/-- C5 amended: over finite inputs the estimator follows the claimed
contract, with the default replacement governed by the IEEE comparison
`Q <= 0.0f` (resp. `R`): finite non-positive values are replaced by
Q = 0.01 / R = 0.1, while the non-finite values NaN and positive infinity
are NOT replaced (see the counterexample).  Uninitialized state: estimate
becomes the measurement, error covariance 1, state marked initialized, and
the measurement is returned unchanged; initialized state: predicted
covariance c + Q, gain, estimate and covariance updated exactly as
claimed. -/
theorem kalmanFilter_contract (e c m q r : ℚ) (hc : 0 ≤ c) :
    kalmanFilter ⟨.fin e, .fin c, false⟩ (.fin m) (.fin q) (.fin r) =
      (⟨.fin m, .fin 1, true⟩, .fin m) ∧
    kalmanFilter ⟨.fin e, .fin c, true⟩ (.fin m) (.fin q) (.fin r) =
      (let q1 : ℚ := if q ≤ 0 then 1/100 else q
       let r1 : ℚ := if r ≤ 0 then 1/10 else r
       let pred := c + q1
       let gain := pred / (pred + r1)
       let est := e + gain * (m - e)
       (⟨.fin est, .fin ((1 - gain) * pred), true⟩, .fin est)) := by
  have h100 : mkRat 1 100 = (1:ℚ)/100 := by
    norm_num [Rat.mkRat_eq_divInt, Rat.divInt_eq_div]
  have h10 : mkRat 1 10 = (1:ℚ)/10 := by
    norm_num [Rat.mkRat_eq_divInt, Rat.divInt_eq_div]
  refine ⟨rfl, ?_⟩
  rcases em (q ≤ 0) with hQ | hQ <;> rcases em (r ≤ 0) with hR | hR
  · have hden : c + (1:ℚ)/100 + 1/10 ≠ 0 := by positivity
    simp only [kalmanFilter, KALMAN_Q_DEFAULT, KALMAN_R_DEFAULT, FP.fle, FP.add, FP.sub,
      FP.mul, FP.div, decide_eq_true_eq, hQ, hR, if_true, if_false, iff_true,
      Bool.not_true, Bool.false_eq_true, h100, h10, qadd_eq, qsub_eq, qmul_eq, qdiv_eq,
      hden, ne_eq, not_false_iff]
  · have hr0 : (0:ℚ) < r := lt_of_not_le hR
    have hden : c + (1:ℚ)/100 + r ≠ 0 := by positivity
    simp only [kalmanFilter, KALMAN_Q_DEFAULT, KALMAN_R_DEFAULT, FP.fle, FP.add, FP.sub,
      FP.mul, FP.div, decide_eq_true_eq, hQ, hR, if_true, if_false, iff_true, iff_false,
      Bool.not_true, Bool.false_eq_true, h100, h10, qadd_eq, qsub_eq, qmul_eq, qdiv_eq,
      hden, ne_eq, not_false_iff]
  · have hq0 : (0:ℚ) < q := lt_of_not_le hQ
    have hden : c + q + (1:ℚ)/10 ≠ 0 := by positivity
    simp only [kalmanFilter, KALMAN_Q_DEFAULT, KALMAN_R_DEFAULT, FP.fle, FP.add, FP.sub,
      FP.mul, FP.div, decide_eq_true_eq, hQ, hR, if_true, if_false, iff_true, iff_false,
      Bool.not_true, Bool.false_eq_true, h100, h10, qadd_eq, qsub_eq, qmul_eq, qdiv_eq,
      hden, ne_eq, not_false_iff]
  · have hq0 : (0:ℚ) < q := lt_of_not_le hQ
    have hr0 : (0:ℚ) < r := lt_of_not_le hR
    have hden : c + q + r ≠ 0 := by positivity
    simp only [kalmanFilter, KALMAN_Q_DEFAULT, KALMAN_R_DEFAULT, FP.fle, FP.add, FP.sub,
      FP.mul, FP.div, decide_eq_true_eq, hQ, hR, if_true, if_false, iff_true, iff_false,
      Bool.not_true, Bool.false_eq_true, h100, h10, qadd_eq, qsub_eq, qmul_eq, qdiv_eq,
      hden, ne_eq, not_false_iff]

end SensorHu

namespace SensorHu

/-- C5 witness: the contract applied at estimate 0, covariance 1,
measurement 4, with non-positive Q = 0 and R = -1 (both replaced by the
defaults). -/
theorem kalmanFilter_contract_witness :
    kalmanFilter ⟨.fin 0, .fin 1, false⟩ (.fin 4) (.fin 0) (.fin (-1)) =
      (⟨.fin 4, .fin 1, true⟩, .fin 4) ∧
    kalmanFilter ⟨.fin 0, .fin 1, true⟩ (.fin 4) (.fin 0) (.fin (-1)) =
      (let q1 : ℚ := if (0:ℚ) ≤ 0 then 1/100 else 0
       let r1 : ℚ := if (-1:ℚ) ≤ 0 then 1/10 else -1
       let pred := 1 + q1
       let gain := pred / (pred + r1)
       let est := 0 + gain * (4 - 0)
       (⟨.fin est, .fin ((1 - gain) * pred), true⟩, .fin est)) :=
  kalmanFilter_contract 0 1 4 0 (-1) (by norm_num)

end SensorHu

namespace SensorHu

/-! ### Lemmas for the assignment-resolver claim -/

theorem char_isAlpha_not_isDigit (c : Char) (h : c.isAlpha = true) :
    c.isDigit = false := by
  simp only [Char.isAlpha, Char.isUpper, Char.isLower, Bool.or_eq_true,
    Bool.and_eq_true, decide_eq_true_eq] at h
  simp only [Char.isDigit, Bool.and_eq_false_iff, decide_eq_false_iff_not]
  rcases h with ⟨h1, h2⟩ | ⟨h1, h2⟩
  · right
    intro hle
    rw [ge_iff_le, UInt32.le_def, BitVec.le_def] at h1
    rw [UInt32.le_def, BitVec.le_def] at hle
    simp at h1 hle
    omega
  · right
    intro hle
    rw [ge_iff_le, UInt32.le_def, BitVec.le_def] at h1
    rw [UInt32.le_def, BitVec.le_def] at hle
    simp at h1 hle
    omega

theorem identHead_facts (c : Char) (h : (c.isAlpha || c = '_') = true) :
    isSpaceTab c = false ∧ c.isDigit = false ∧ c ≠ '.' ∧ c ≠ '-' ∧ c ≠ '+' ∧
      c ≠ '(' := by
  rcases Bool.or_eq_true .. |>.mp h with ha | hu
  · have hne : ∀ d : Char, d.isAlpha = false → c ≠ d := by
      intro d hd heq
      rw [heq] at ha
      rw [ha] at hd
      cases hd
    refine ⟨?_, char_isAlpha_not_isDigit c ha, hne _ (by decide), hne _ (by decide),
      hne _ (by decide), hne _ (by decide)⟩
    simp [isSpaceTab, hne ' ' (by decide), hne '\t' (by decide)]
  · have hc : c = '_' := by simpa using hu
    subst hc
    refine ⟨by decide, by decide, by decide, by decide, by decide, by decide⟩

theorem lookupVar_updateFirst (tv : List Variable) (n : String) (v : ℚ)
    (h : tv.any (fun w => w.name = n) = true) :
    lookupVar (updateFirst tv n v) n = some v := by
  induction tv with
  | nil => cases h
  | cons w rest ih =>
    by_cases hw : w.name = n
    · simp [updateFirst, hw, lookupVar, List.find?]
    · rw [updateFirst, if_neg hw]
      rw [List.any_cons] at h
      have h2 : rest.any (fun w => w.name = n) = true := by
        rcases Bool.or_eq_true .. |>.mp h with h1 | h1
        · exact absurd (by simpa using h1) hw
        · exact h1
      rw [lookupVar] at ih ⊢
      rw [List.find?_cons_of_neg _ (by simpa using hw)]
      exact ih h2

theorem lookupVar_append_new (tv : List Variable) (n : String) (v : ℚ)
    (h : tv.any (fun w => w.name = n) = false) :
    lookupVar (tv ++ [⟨n, v⟩]) n = some v := by
  induction tv with
  | nil => simp [lookupVar, List.find?]
  | cons w rest ih =>
    rw [List.any_cons, Bool.or_eq_false_iff] at h
    have hw : ¬(w.name = n) := by simpa using h.1
    rw [List.cons_append, lookupVar, List.find?_cons_of_neg _ (by simpa using hw)]
    exact ih h.2

theorem storeTempVar_found (tv : List Variable) (n : String) (v : ℚ)
    (hcap : tv.length < MAX_TEMP_VARS ∨ tv.any (fun w => w.name = n) = true) :
    (storeTempVar tv n v).2 = false ∧
    lookupVar (storeTempVar tv n v).1 n = some v := by
  by_cases hany : tv.any (fun w => w.name = n) = true
  · rw [storeTempVar, if_pos hany]
    exact ⟨rfl, lookupVar_updateFirst tv n v hany⟩
  · have hlen : tv.length < MAX_TEMP_VARS := by
      rcases hcap with h | h
      · exact h
      · exact absurd h hany
    rw [storeTempVar, if_neg hany, if_pos hlen]
    exact ⟨rfl, lookupVar_append_new tv n v (Bool.eq_false_iff.mpr hany)⟩

end SensorHu

namespace SensorHu

theorem skipSpaces_of_head (c : Char) (cs : List Char) (h : isSpaceTab c = false) :
    skipSpaces (c :: cs) = c :: cs := by
  rw [skipSpaces, if_neg (by simp [h])]

theorem string_mk_cons_ne_empty (c : Char) (cs : List Char) :
    String.mk (c :: cs) ≠ "" := by
  intro h
  have h2 := congrArg String.data h
  simp at h2

theorem parseIdentifier_all (c : Char) (cs : List Char)
    (hhead : (c.isAlpha || c = '_') = true)
    (hall : ∀ x ∈ c :: cs, isIdentChar x = true) :
    parseIdentifier (c :: cs) = (String.mk (c :: cs), []) := by
  obtain ⟨hst, _, _, _, _, _⟩ := identHead_facts c hhead
  rw [parseIdentifier, skipSpaces_of_head c cs hst]
  simp only [if_pos hhead]
  rw [List.takeWhile_eq_self_iff.mpr
    (fun x hx => hall x (List.mem_cons_of_mem _ hx)),
    List.dropWhile_eq_nil_iff.mpr (fun x hx => hall x (List.mem_cons_of_mem _ hx))]

theorem evalTerm_var (f : Nat) (vars : List Variable) (c : Char) (cs : List Char)
    (v : ℚ) (hhead : (c.isAlpha || c = '_') = true)
    (hall : ∀ x ∈ c :: cs, isIdentChar x = true)
    (hlook : lookupVar vars (String.mk (c :: cs)) = some v) :
    evalTerm (f+1) vars (c :: cs) = .ok (v, []) := by
  obtain ⟨hst, hdig, hdot, hminus, hplus, hparen⟩ := identHead_facts c hhead
  rw [evalTerm]
  simp only [skipSpaces_of_head c cs hst, parseIdentifier_all c cs hhead hall, hlook,
    hdig, hdot, hminus, hplus, hparen, hhead, string_mk_cons_ne_empty c cs,
    Bool.false_or, Bool.or_self, Bool.or_false, decide_eq_true_eq, if_false, if_true,
    decide_False, Bool.false_eq_true, ite_false, ite_true]

end SensorHu

namespace SensorHu

theorem findAssignEqAux_split (lhs : List Char) : ∀ (prev : Option Char)
    (acc rhs : List Char), '=' ∉ lhs →
    ((lhs.foldl (fun _ c => some c) prev).elim false blocksAssignEq) = false →
    rhs.head? ≠ some '=' →
    findAssignEqAux prev acc (lhs ++ '=' :: rhs) = some (acc ++ lhs, rhs) := by
  induction lhs with
  | nil =>
    intro prev acc rhs _ h2 h3
    have hprev : ¬(prev = some '=' ∨ prev = some '<' ∨ prev = some '>' ∨
        prev = some '!') := by
      rcases prev with _ | pc
      · rintro (h | h | h | h) <;> cases h
      · simp only [List.foldl_nil, Option.elim] at h2
        rintro (h | h | h | h) <;>
          (injection h with h; subst h; simp [blocksAssignEq] at h2)
    rw [List.nil_append, findAssignEqAux, if_pos rfl, if_neg hprev, if_neg h3]
    simp
  | cons a l ih =>
    intro prev acc rhs h1 h2 h3
    have ha : a ≠ '=' := fun h => h1 (h ▸ List.mem_cons_self a l)
    rw [List.cons_append, findAssignEqAux, if_neg ha]
    have h2b : ((l.foldl (fun _ c => some c) (some a)).elim false blocksAssignEq) =
        false := by simpa using h2
    rw [ih (some a) (acc ++ [a]) rhs (fun h => h1 (List.mem_cons_of_mem _ h)) h2b h3]
    simp

end SensorHu

namespace SensorHu

theorem evalComparison_var (f : Nat) (vars : List Variable) (c : Char)
    (cs : List Char) (v : ℚ)
    (hhead : (c.isAlpha || c = '_') = true)
    (hall : ∀ x ∈ c :: cs, isIdentChar x = true)
    (hlook : lookupVar vars (String.mk (c :: cs)) = some v) :
    evalComparison (f+2) vars (c :: cs) = .ok (v, []) := by
  obtain ⟨hst, hdig, hdot, hminus, hplus, hparen⟩ := identHead_facts c hhead
  simp only [evalComparison, evalAddLoop, skipSpaces, hst,
    evalTerm_var f vars c cs v hhead hall hlook, List.head?_cons, List.tail_cons,
    Option.some.injEq, hminus, hplus, if_false, ite_false,
    Bool.false_eq_true]

theorem evaluateExpression_var (nm : List Char) (vars : List Variable) (v : ℚ)
    (hne : nm ≠ [])
    (hhead : ((nm.headD ' ').isAlpha || nm.headD ' ' = '_') = true)
    (hall : ∀ x ∈ nm, isIdentChar x = true)
    (hlook : lookupVar vars (String.mk nm) = some v) :
    evaluateExpression (String.mk nm) vars = .ok v := by
  obtain ⟨c, cs, rfl⟩ : ∃ c cs, nm = c :: cs := by
    cases nm with
    | nil => exact absurd rfl hne
    | cons c cs => exact ⟨c, cs, rfl⟩
  have hhead2 : (c.isAlpha || c = '_') = true := by simpa using hhead
  have hdata : (String.mk (c :: cs)).data = c :: cs := rfl
  obtain ⟨m, hm⟩ : ∃ m, evalFuel (c :: cs) = m + 3 :=
    ⟨8 * (c :: cs).length + 5, by simp [evalFuel]⟩
  rw [evaluateExpression, hdata, hm]
  simp only [evalExpr]
  rw [evalComparison_var m vars c cs v hhead2 hall hlook]
  rfl

end SensorHu

namespace SensorHu

/-- C3: a statement whose destination (the text before the assignment
`=`) does not open with `\x7bd[` after trimming is resolved as a
temporary-variable assignment targeting the trimmed destination truncated
to 5 characters; and once the statement has run, evaluating that name
against the updated table — which is what a later statement of the same
pass does — reads the value just assigned. -/
theorem parseAssignment_var_target_and_readback
    (lhs rhs : List Char)
    (hnoeq : '=' ∉ lhs)
    (hlast : ((lhs.foldl (fun _ c => some c) none).elim false blocksAssignEq) = false)
    (hrhead : rhs.head? ≠ some '=')
    (hgate : (trimC lhs).length < 6 ∨ (trimC lhs).getD 0 ' ' ≠ '\x7b' ∨
      (trimC lhs).getD 1 ' ' ≠ 'd' ∨ (trimC lhs).getD 2 ' ' ≠ '[')
    (hrne : ltrimC rhs ≠ [])
    (hrlen : (ltrimC rhs).length ≤ 2048)
    (hid1 : (trimC lhs).take 5 ≠ [])
    (hid2 : ((((trimC lhs).take 5).headD ' ').isAlpha ||
      ((trimC lhs).take 5).headD ' ' = '_') = true)
    (hid3 : ∀ x ∈ (trimC lhs).take 5, isIdentChar x = true) :
    parseAssignment (lhs ++ '=' :: rhs) =
      .ok { hasAssignment := true, isVariableAssignment := true,
            targetVariable := String.mk ((trimC lhs).take 5),
            targetDeviceIndex := -1, targetRegisterIndex := -1,
            expression := ltrimC rhs } ∧
    ∀ (mw : Nat → Nat → Nat → Nat) (dv : DeviceValues) (ln : Nat)
      (st : CycleState) (pe : List Char) (result : ℚ),
      substituteDeviceValues (ltrimC rhs) dv 2048 = .ok pe →
      evaluateExpression (String.mk pe) st.tempVars = .ok result →
      (st.tempVars.length < MAX_TEMP_VARS ∨
        st.tempVars.any (fun w => w.name = String.mk ((trimC lhs).take 5)) = true) →
      evaluateExpression (String.mk ((trimC lhs).take 5))
        (processStatement mw dv ln (lhs ++ '=' :: rhs) st).tempVars = .ok result := by
  have hfind : findAssignEq (lhs ++ '=' :: rhs) = some (lhs, rhs) := by
    rw [findAssignEq, findAssignEqAux_split lhs none [] rhs hnoeq hlast hrhead,
      List.nil_append]
  have h0 : ¬((ltrimC rhs).length = 0) := by
    simpa [List.length_eq_zero] using hrne
  have h1 : ¬((ltrimC rhs).length > 2048) := not_lt.mpr hrlen
  have hA : parseAssignment (lhs ++ '=' :: rhs) =
      .ok { hasAssignment := true, isVariableAssignment := true,
            targetVariable := String.mk ((trimC lhs).take 5),
            targetDeviceIndex := -1, targetRegisterIndex := -1,
            expression := ltrimC rhs } := by
    rw [parseAssignment, hfind]
    simp only [if_pos hgate, if_neg h0, if_neg h1]
  refine ⟨hA, ?_⟩
  intro mw dv ln st pe result hsub heval hcap
  rw [processStatement, hA]
  simp only [if_true, ite_true]
  rw [hsub]
  simp only [heval, if_true, ite_true, List.take_take, Nat.min_self]
  obtain ⟨-, hfound⟩ :=
    storeTempVar_found st.tempVars (String.mk ((trimC lhs).take 5)) result hcap
  exact evaluateExpression_var _ _ _ hid1 hid2 hid3 hfound

end SensorHu

namespace SensorHu

theorem parseAssignment_var_target_and_readback_witness :
    parseAssignment ("temp1".data ++ '=' :: " 7".data) =
      .ok { hasAssignment := true, isVariableAssignment := true,
            targetVariable := String.mk ((trimC "temp1".data).take 5),
            targetDeviceIndex := -1, targetRegisterIndex := -1,
            expression := ltrimC " 7".data } ∧
    evaluateExpression (String.mk ((trimC "temp1".data).take 5))
      (processStatement alwaysOkWrite ⟨[]⟩ 1 ("temp1".data ++ '=' :: " 7".data)
        ⟨twoLineFallbackCfg, [], []⟩).tempVars = .ok 7 := by
  have h := parseAssignment_var_target_and_readback "temp1".data " 7".data
    (by decide) (by decide) (by decide) (by decide) (by decide) (by decide)
    (by decide) (by decide) (by decide)
  exact ⟨h.1, h.2 alwaysOkWrite ⟨[]⟩ 1 ⟨twoLineFallbackCfg, [], []⟩ "7".data 7
    (by decide) (by decide) (by decide)⟩

end SensorHu
